import Mathlib

/-!
# Verification of the recovery controller (recovery.c)

A shallow embedding of the restart-safe command resolution and completion
protocol of the recovery-mode controller: `get_args` (the Command Resolver),
`finish_recovery` (Completion/Retirement), and the operation dispatch and
post-dispatch control flow of `main`.

Byte strings (the contents of the bootloader control block fields) are
modelled as `List Nat`; command-line arguments as `String`.
-/

namespace Recovery

/-- Modelled from the spec: `bootloader.h` is not under `src/`; the spec's
External Interfaces section gives the fixed field sizes of the bootloader
control block: `command` ≤ 32 bytes. -/
def COMMAND_SIZE : Nat := 32

/-- Modelled from the spec: `bootloader.h` is not under `src/`; the spec's
External Interfaces section gives the fixed field sizes of the bootloader
control block: `recovery` ≤ 1024 bytes. -/
def RECOVERY_SIZE : Nat := 1024

/-- `static const int MAX_ARGS = 100;` (recovery.c line 120). -/
def MAX_ARGS : Nat := 100

/-- The bootloader control block (`struct bootloader_message`): three
fixed-size byte fields. We model each field as the list of bytes stored in
it (zero padding beyond the terminator is not represented; a zeroed field is
the empty list). -/
structure BootMsg where
  command : List Nat
  status : List Nat
  recovery : List Nat
  deriving Repr, DecidableEq

/-- The all-zero control block produced by `memset(&boot, 0, sizeof(boot))`. -/
def zeroBoot : BootMsg := ⟨[], [], []⟩

/-- The bytes of a string (each char's code point; ASCII in all real uses). -/
def strBytes (s : String) : List Nat := s.data.map Char.toNat

/-- Decode a byte list back into a `String` (`strdup` of a token). -/
def bytesToString (bs : List Nat) : String := String.mk (bs.map Char.ofNat)

/-- `strlcpy(dst, src, size)`: the stored bytes are the first `size - 1`
bytes of `src` (the NUL terminator is implicit in our representation). -/
def strlcpy (src : List Nat) (size : Nat) : List Nat := src.take (size - 1)

/-- `strlcat(dst, src, size)`: appends at most `size - 1 - strlen(dst)`
bytes of `src` to `dst`. -/
def strlcat (dst src : List Nat) (size : Nat) : List Nat :=
  dst ++ src.take (size - 1 - dst.length)

/-- The newline byte. -/
def NL : Nat := 10

/-- Split a byte string at every newline, keeping empty pieces (the piece
list is never empty). -/
def chunks : List Nat → List (List Nat)
  | [] => [[]]
  | b :: bs =>
    if b = NL then [] :: chunks bs
    else
      match chunks bs with
      | [] => [[b]]
      | t :: rest => (b :: t) :: rest

/-- Successive `strtok(_, "\n")` calls on a byte string: skip runs of
delimiters, return the maximal non-delimiter runs, in order. Empty tokens do
not occur. -/
def tokens (bs : List Nat) : List (List Nat) :=
  (chunks bs).filter (· ≠ [])

/-- The C string contained in the `recovery` field as `get_args` reads it:
the code forces a terminator at index `sizeof(recovery) - 1` and then reads
the NUL-terminated prefix. -/
def effectiveRecovery (b : BootMsg) : List Nat :=
  (b.recovery.take (RECOVERY_SIZE - 1)).takeWhile (· ≠ 0)

/-- `strtok(buf, "\r\n")` applied to one line read from the command file:
skip leading CR/LF bytes, take up to the next CR/LF. (The code passes the
result to `strdup`; we model the all-delimiter line as the empty string.) -/
def stripLine (s : String) : String :=
  String.mk (((s.data.dropWhile fun c => c = '\r' ∨ c = '\n').takeWhile
    fun c => ¬(c = '\r' ∨ c = '\n')))

/-- The canonical serialization `get_args` writes into the `recovery` field
before truncation: the identifying token and a newline, then each resolved
argument from index 1 on, each followed by a newline. -/
def recoveryText (args : List String) : List Nat :=
  strBytes "recovery\n" ++ (args.drop 1).flatMap fun a => strBytes a ++ [NL]

/-- The result of the Command Resolver: the resolved argument vector, the
control block as re-written, and whether the "Bad boot message" warning was
logged. -/
structure GetArgsResult where
  argv : List String
  boot : BootMsg
  warnedBadBoot : Bool
  deriving Repr, DecidableEq

/-- `get_args` (recovery.c lines 159–219). Inputs: the process argument
vector (`argv`, head = program name), the control block read by
`get_bootloader_message` (a read failure leaves the zeroed structure, i.e.
`zeroBoot`), and the command file (`none` if it cannot be opened, otherwise
its lines). Output: the resolved vector, the re-armed control block handed
to `set_bootloader_message`, and the warning flag. -/
def get_args (argv : List String) (boot : BootMsg)
    (cmdFile : Option (List String)) : GetArgsResult :=
  -- --- if arguments weren't supplied, look in the bootloader control block
  let toks := tokens (effectiveRecovery boot)
  let argv1 : List String :=
    if argv.length ≤ 1 then
      match toks with
      | t :: rest =>
        if t = strBytes "recovery" then
          bytesToString t :: (rest.take (MAX_ARGS - 1)).map bytesToString
        else argv
      | [] => argv
    else argv
  let warned : Bool :=
    if argv.length ≤ 1 then
      (match toks with
       | t :: _ => decide (t ≠ strBytes "recovery")
       | [] => true)
      && decide (boot.recovery.headD 0 ≠ 0)
      && decide (boot.recovery.headD 0 ≠ 255)
    else false
  -- --- if that doesn't work, try the command file
  let argv2 : List String :=
    if argv1.length ≤ 1 then
      match cmdFile with
      | some lines =>
        argv1.headD "" :: (lines.take (MAX_ARGS - 1)).map stripLine
      | none => argv1
    else argv1
  -- --> write the arguments we have back into the bootloader control block
  let cmd' := strlcpy (strBytes "boot-recovery") COMMAND_SIZE
  let rec0 := strlcpy (strBytes "recovery\n") RECOVERY_SIZE
  let rec' := (argv2.drop 1).foldl
    (fun d a => strlcat (strlcat d (strBytes a) RECOVERY_SIZE) [NL] RECOVERY_SIZE)
    rec0
  { argv := argv2
    boot := { command := cmd', status := boot.status, recovery := rec' }
    warnedBadBoot := warned }

/-- The filesystem-and-BCB state touched by `finish_recovery`, together with
the file-local `static long tmplog_offset`. -/
structure World where
  intentFile : Option String
  logFile : List Nat
  tmplog : List Nat
  tmplogOffset : Nat
  boot : BootMsg
  commandFileExists : Bool
  deriving Repr, DecidableEq

/-- `unlink(path)` on the command file: succeeds when the file exists,
otherwise fails with `ENOENT` (errno 2). -/
def unlinkCommandFile (exists_ : Bool) : Except Nat Unit :=
  if exists_ then .ok () else .error 2

/-- `finish_recovery(send_intent)` (recovery.c lines 226–273): write the
intent artifact, append the unread part of the temporary log to the durable
log and advance the offset, zero the control block, and unlink the command
file (warning only when the unlink fails with an errno other than
`ENOENT`). Returns the new state and whether the unlink warning fired. -/
def finish_recovery (send_intent : Option String) (w : World) : World × Bool :=
  let w1 := match send_intent with
    | some s => { w with intentFile := some s }
    | none => w
  -- Copy logs to cache so the system can find out what happened.
  let w2 := { w1 with
    logFile := w1.logFile ++ w1.tmplog.drop w1.tmplogOffset
    tmplogOffset := w1.tmplog.length }
  -- Reset the bootloader message to revert to a normal main system boot.
  let w3 := { w2 with boot := zeroBoot }
  -- Remove the command file, so recovery won't repeat indefinitely.
  let warn : Bool := match unlinkCommandFile w3.commandFileExists with
    | .ok _ => false
    | .error e => decide (e ≠ 2)
  let w4 := { w3 with commandFileExists := false }
  (w4, warn)

/-- Modelled from the spec: `install.h` is not under `src/`; `INSTALL_SUCCESS`
is the zero (success) status of the install-status enumeration, and every
other value is a failure. -/
def INSTALL_SUCCESS : Nat := 0

/-- Modelled from the spec: `install.h` is not under `src/`; `INSTALL_ERROR`
is a fixed nonzero failure status. -/
def INSTALL_ERROR : Nat := 1

/-- The option state accumulated by the `getopt_long` loop in `main`
(recovery.c lines 1421–1438). -/
structure ParseState where
  send_intent : Option String
  update_package : Option String
  wipe_data : Bool
  wipe_cache : Bool
  deriving Repr, DecidableEq

/-- One step of the option loop. `getopt_long` itself is libc (an external
collaborator); we model the canonical long-option forms of the OPTIONS table
(recovery.c lines 44–49): `--send_intent=<s>`, `--update_package=<p>`,
`--wipe_data`, `--wipe_cache`; anything else is logged and skipped. -/
def parseOne (st : ParseState) (a : String) : ParseState :=
  if a = "--wipe_data" then { st with wipe_data := true, wipe_cache := true }
  else if a = "--wipe_cache" then { st with wipe_cache := true }
  else if "--update_package=".isPrefixOf a then
    { st with update_package := some (a.drop "--update_package=".length) }
  else if "--send_intent=".isPrefixOf a then
    { st with send_intent := some (a.drop "--send_intent=".length) }
  else st

/-- The whole option loop over the resolved argument vector. -/
def parse_options (argv : List String) : ParseState :=
  (argv.drop 1).foldl parseOne ⟨none, none, false, false⟩

/-- The outcome of the dispatch block of `main` (recovery.c lines
1458–1469): the terminal status, the roots passed to `erase_root` in call
order, and the package handed to `install_package` (if any). -/
structure DispatchResult where
  status : Nat
  eraseCalls : List String
  installedPkg : Option String
  deriving Repr, DecidableEq

/-- The dispatch block of `main`. External collaborators are oracles:
`installResult` is what `install_package` returns, `erase r` is what
`erase_root r` returns (0 = success, nonzero = failure). -/
def dispatch (p : ParseState) (installResult : Nat) (erase : String → Nat) :
    DispatchResult :=
  match p.update_package with
  | some pkg => ⟨installResult, [], some pkg⟩
  | none =>
    if p.wipe_data || p.wipe_cache then
      let s1 := if p.wipe_data ∧ erase "DATA:" ≠ 0 then INSTALL_ERROR
                else INSTALL_SUCCESS
      let s2 := if p.wipe_cache ∧ erase "CACHE:" ≠ 0 then INSTALL_ERROR else s1
      ⟨s2, (if p.wipe_data then ["DATA:"] else [])
            ++ (if p.wipe_cache then ["CACHE:"] else []), none⟩
    else
      ⟨INSTALL_ERROR, [], none⟩  -- No command specified

/-- The externally observable steps of `main` after the dispatch block
(recovery.c lines 1471–1496). -/
inductive MainEvent where
  | showFailureIndicator  -- ui_set_background(BACKGROUND_ICON_ERROR)
  | backlightOff          -- the keyboard-backlight echo
  | mountRoots            -- the three ensure_root_path_mounted calls
  | promptAndWait         -- prompt_and_wait()
  | firmwareUpdate        -- maybe_install_firmware_update(send_intent)
  | finishRec             -- finish_recovery(send_intent)
  | rebootCall            -- reboot(...)
  deriving Repr, DecidableEq

/-- The post-dispatch control flow of `main`, as the sequence of observable
steps it performs given the terminal status and the value `do_reboot` holds
after the (possible) interactive fallback returns. -/
def post_dispatch (status : Nat) (do_reboot : Nat) : List MainEvent :=
  (if status ≠ INSTALL_SUCCESS then [.showFailureIndicator] else [])
  ++ [.backlightOff, .mountRoots]
  ++ (if status ≠ INSTALL_SUCCESS then [.promptAndWait] else [])
  ++ [.firmwareUpdate, .finishRec]
  ++ (if do_reboot ≠ 0 then [.rebootCall] else [])

/-- A concrete armed control block: `--wipe_cache` pending. -/
def bootWipeCache : BootMsg :=
  ⟨strBytes "boot-recovery", [], strBytes "recovery\n--wipe_cache\n"⟩

/-- A concrete `World` for witnesses: two bytes already flushed to the
durable log, temporary log fully flushed so far, command file present. -/
def w0 : World :=
  ⟨none, [65, 66], [67, 68, 69], 3, bootWipeCache, true⟩

/-- A control block whose `recovery` field holds non-empty garbage. -/
def bootGarbage : BootMsg := ⟨[], [], strBytes "garbage\nstuff"⟩

/-- A control block whose `recovery` field starts with the `0xFF` erased
sentinel. -/
def bootFF : BootMsg := ⟨[], [], [255, 70, 70]⟩

/-- An argument long enough to overflow the `recovery` field. -/
def bigArg : String := String.mk (List.replicate 1200 'a')

theorem take_append_take {α : Type} (x y : List α) (n : Nat) :
    (x.take n ++ y).take n = (x ++ y).take n := by
  rw [List.take_append_eq_append_take, List.take_append_eq_append_take]
  simp only [List.take_take, Nat.min_self, List.length_take]
  congr 1
  rcases Nat.le_total n x.length with h | h
  · rw [Nat.min_eq_left h, Nat.sub_self, Nat.sub_eq_zero_of_le h]
  · rw [Nat.min_eq_right h]

theorem strlcat_eq_take (d s : List Nat) (h : d.length ≤ RECOVERY_SIZE - 1) :
    strlcat d s RECOVERY_SIZE = (d ++ s).take (RECOVERY_SIZE - 1) := by
  unfold strlcat
  rw [List.take_append_eq_append_take, List.take_of_length_le h]

/-- The `strlcat` loop of `get_args` (lines 213–217) computes the prefix that
fits of the full concatenation. -/
theorem strlcat_chain (l : List String) : ∀ acc : List Nat,
    acc.length ≤ RECOVERY_SIZE - 1 →
    l.foldl (fun d a =>
        strlcat (strlcat d (strBytes a) RECOVERY_SIZE) [NL] RECOVERY_SIZE) acc
      = (acc ++ l.flatMap fun a => strBytes a ++ [NL]).take (RECOVERY_SIZE - 1) := by
  induction l with
  | nil => intro acc h; simp [List.take_of_length_le h]
  | cons a l ih =>
    intro acc h
    rw [List.foldl_cons,
      strlcat_eq_take _ _ h,
      strlcat_eq_take _ _ (List.length_take_le _ _),
      take_append_take,
      ih _ (List.length_take_le _ _),
      take_append_take]
    simp [List.append_assoc]

/-- The control block `get_args` hands to `set_bootloader_message`:
`command` is `"boot-recovery"`, `status` is untouched, and `recovery` is the
canonical serialization of the resolved vector, truncated to the field. -/
theorem get_args_boot_eq (argv : List String) (boot : BootMsg)
    (f : Option (List String)) :
    (get_args argv boot f).boot
      = ⟨strBytes "boot-recovery", boot.status,
         (recoveryText (get_args argv boot f).argv).take (RECOVERY_SIZE - 1)⟩ := by
  have hacc : strlcpy (strBytes "recovery\n") RECOVERY_SIZE
      = strBytes "recovery\n" := by decide
  simp only [get_args, recoveryText, BootMsg.mk.injEq]
  refine ⟨by decide, trivial, ?_⟩
  rw [strlcat_chain _ _ (by decide), hacc]

theorem chunks_ne_nil (bs : List Nat) : chunks bs ≠ [] := by
  induction bs with
  | nil => simp [chunks]
  | cons b bs ih =>
    simp only [chunks]
    split
    · simp
    · split
      · simp
      · simp

/-- Splitting distributes over a newline-free prefix followed by a newline. -/
theorem chunks_append_nl (t rest : List Nat) (h : ∀ b ∈ t, b ≠ NL) :
    chunks (t ++ NL :: rest) = t :: chunks rest := by
  induction t with
  | nil => simp [chunks]
  | cons b t' ih =>
    have hb : ¬ b = NL := h b (by simp)
    rw [List.cons_append, chunks.eq_def]
    simp only [if_neg hb, ih (fun x hx => h x (by simp [hx]))]

/-- `strtok` peels one newline-free, nonempty token off the front. -/
theorem tokens_token_cons (t rest : List Nat) (hne : t ≠ [])
    (hnl : ∀ b ∈ t, b ≠ NL) :
    tokens (t ++ NL :: rest) = t :: tokens rest := by
  unfold tokens
  rw [chunks_append_nl t rest hnl, List.filter_cons]
  simp [hne]

/-- A byte string starting with a non-newline byte has a first token
starting with that byte. -/
theorem tokens_head_byte (b : Nat) (hb : b ≠ NL) (rest : List Nat) :
    ∃ x, (tokens (b :: rest)).head? = some (b :: x) := by
  unfold tokens
  rw [chunks.eq_def]
  simp only [if_neg hb]
  rcases hc : chunks rest with _ | ⟨t, cr⟩
  · exact absurd hc (chunks_ne_nil rest)
  · exact ⟨t, by simp⟩

/-- The token list of the serialized argument tail: one token per argument,
provided each argument is nonempty and free of NUL and newline bytes. -/
theorem tokens_flatMap (args : List String)
    (h : ∀ a ∈ args, strBytes a ≠ [] ∧ ∀ b ∈ strBytes a, b ≠ NL) :
    tokens (args.flatMap fun a => strBytes a ++ [NL]) = args.map strBytes := by
  induction args with
  | nil => simp [tokens, chunks]
  | cons a args ih =>
    rw [List.flatMap_cons, List.append_assoc, List.singleton_append,
      tokens_token_cons _ _ (h a (by simp)).1 (h a (by simp)).2,
      ih (fun x hx => h x (by simp [hx])), List.map_cons]

/-- When the caller supplied real arguments, the Resolver uses them as-is:
neither the control block's argument lines nor the command file enter the
result. -/
theorem get_args_of_explicit (argv : List String) (boot : BootMsg)
    (f : Option (List String)) (h : 2 ≤ argv.length) :
    get_args argv boot f
      = ⟨argv, ⟨strBytes "boot-recovery", boot.status,
          (recoveryText argv).take (RECOVERY_SIZE - 1)⟩, false⟩ := by
  have h1 : ¬ argv.length ≤ 1 := by omega
  simp only [get_args, if_neg h1]
  rw [strlcat_chain _ _ (by decide),
    (show strlcpy (strBytes "recovery\n") RECOVERY_SIZE = strBytes "recovery\n"
      by decide),
    (show strlcpy (strBytes "boot-recovery") COMMAND_SIZE
        = strBytes "boot-recovery" by decide)]
  simp only [recoveryText]

/-- When no real arguments were supplied and the control block is armed with
at least one argument line, the Resolver reconstructs the vector from the
control block and the command file is not consulted. -/
theorem get_args_of_bcb (argv : List String) (boot : BootMsg)
    (f : Option (List String)) (h : argv.length ≤ 1)
    (t : List Nat) (ts : List (List Nat))
    (htoks : tokens (effectiveRecovery boot) = strBytes "recovery" :: t :: ts) :
    get_args argv boot f
      = ⟨"recovery" :: ((t :: ts).take (MAX_ARGS - 1)).map bytesToString,
         ⟨strBytes "boot-recovery", boot.status,
          (recoveryText ("recovery" ::
            ((t :: ts).take (MAX_ARGS - 1)).map bytesToString)).take
              (RECOVERY_SIZE - 1)⟩,
         false⟩ := by
  have hr : bytesToString (strBytes "recovery") = "recovery" := by decide
  have hlen : ¬ ("recovery" ::
      ((t :: ts).take (MAX_ARGS - 1)).map bytesToString).length ≤ 1 := by
    simp [List.length_take, MAX_ARGS]
  simp only [get_args, if_pos h, htoks, eq_self_iff_true, if_true, hr,
    decide_not, decide_eq_true_eq, not_true, Bool.not_true, Bool.false_and,
    if_neg hlen]
  rw [strlcat_chain _ _ (by decide),
    (show strlcpy (strBytes "recovery\n") RECOVERY_SIZE = strBytes "recovery\n"
      by decide),
    (show strlcpy (strBytes "boot-recovery") COMMAND_SIZE
        = strBytes "boot-recovery" by decide)]
  simp [recoveryText]

/-- When no real arguments were supplied and the control block's first token
is not the identifying literal, the resolved vector is the same as if the
`recovery` field were empty: the Resolver falls through to the command
file. -/
theorem get_args_argv_fallthrough (argv : List String) (boot : BootMsg)
    (f : Option (List String)) (h : argv.length ≤ 1)
    (hm : (tokens (effectiveRecovery boot)).head? ≠ some (strBytes "recovery")) :
    (get_args argv boot f).argv
      = (get_args argv ⟨boot.command, boot.status, []⟩ f).argv := by
  have hempty : tokens (effectiveRecovery ⟨boot.command, boot.status, []⟩)
      = [] := rfl
  rcases htoks : tokens (effectiveRecovery boot) with _ | ⟨t, ts⟩
  · simp only [get_args, htoks, hempty, if_pos h]
  · have hne : ¬ t = strBytes "recovery" := by
      intro e
      exact hm (by rw [htoks, e]; rfl)
    simp only [get_args, htoks, hempty, if_pos h, if_neg hne]

/-- C1: For every resolved argument vector — whatever source it came from,
including a vector containing only the program name — the Command Resolver
finishes by writing the control block with `command = "boot-recovery"` and
`recovery` = the identifying token `"recovery"` followed by a newline, then
each resolved argument from index 1 on, each followed by a newline, the
whole text truncated to the recovery field's fixed capacity; the write
happens unconditionally, on every run of the resolver. -/
theorem get_args_always_arms_bcb (argv : List String) (boot : BootMsg)
    (f : Option (List String)) :
    (get_args argv boot f).boot.command = strBytes "boot-recovery" ∧
    (get_args argv boot f).boot.recovery
      = (recoveryText (get_args argv boot f).argv).take (RECOVERY_SIZE - 1) := by
  rw [get_args_boot_eq]
  exact ⟨rfl, rfl⟩

/-- C2: If the explicit argument vector has ≥ 2 effective arguments, the
Resolver returns exactly it, reading neither the control block's recovery
arguments nor the command file into the result (the result does not depend
on the command file at all); more generally, if the explicit vector is
empty and the armed control block yields ≥ 2 effective arguments, the
command file is likewise not consulted. -/
theorem explicit_args_precedence (argv : List String) (boot : BootMsg)
    (f f' : Option (List String)) :
    (2 ≤ argv.length →
      (get_args argv boot f).argv = argv ∧
      get_args argv boot f = get_args argv boot f') ∧
    (argv.length ≤ 1 →
      ∀ t ts, tokens (effectiveRecovery boot) = strBytes "recovery" :: t :: ts →
        get_args argv boot f = get_args argv boot f') := by
  constructor
  · intro h
    rw [get_args_of_explicit argv boot f h, get_args_of_explicit argv boot f' h]
    exact ⟨rfl, rfl⟩
  · intro h t ts ht
    rw [get_args_of_bcb argv boot f h t ts ht,
      get_args_of_bcb argv boot f' h t ts ht]

/-- Witness for C2 at concrete inputs: an explicit two-argument vector wins
over an armed block and a populated command file, and an armed block with
one argument line makes the command file irrelevant. -/
theorem explicit_args_precedence_witness :
    (2 ≤ (["/sbin/recovery", "--wipe_data"] : List String).length ∧
      (get_args ["/sbin/recovery", "--wipe_data"] bootWipeCache
          (some ["--update_package=CACHE:u.zip"])).argv
        = ["/sbin/recovery", "--wipe_data"]) ∧
    get_args ["/sbin/recovery"] bootWipeCache
        (some ["--update_package=CACHE:u.zip"])
      = get_args ["/sbin/recovery"] bootWipeCache none :=
  ⟨⟨by decide,
    ((explicit_args_precedence ["/sbin/recovery", "--wipe_data"] bootWipeCache
        (some ["--update_package=CACHE:u.zip"]) none).1 (by decide)).1⟩,
   (explicit_args_precedence ["/sbin/recovery"] bootWipeCache
        (some ["--update_package=CACHE:u.zip"]) none).2 (by decide)
      (strBytes "--wipe_cache") [] (by decide)⟩

/-- C4: Completion is idempotent: for every pending-intent value, calling
`finish_recovery` twice in a row produces the same final control block
(empty) and command-artifact state (absent) as calling it once — indeed the
same full state — and the second call does not error even though the
command artifact is already gone: deleting an already-absent artifact
(`unlink` failing with `ENOENT`) counts as success, not an error. -/
theorem finish_recovery_idempotent (i : Option String) (w : World) :
    (finish_recovery i (finish_recovery i w).1).1 = (finish_recovery i w).1 ∧
    (finish_recovery i (finish_recovery i w).1).2 = false := by
  cases i <;>
    simp [finish_recovery, unlinkCommandFile, List.drop_length]

/-- C5: Two successive Completion calls in one run — the temporary log has
grown by `A` before the first call and by `B` more before the second — put
exactly `A ++ B` into the durable log once, never `A` then `A ++ B` again:
the copy starts from the tracked byte offset, advanced at each append. -/
theorem finish_recovery_log_no_duplication (w : World) (i : Option String)
    (A B : List Nat) (h : w.tmplogOffset = w.tmplog.length) :
    ((finish_recovery i
        { (finish_recovery i { w with tmplog := w.tmplog ++ A }).1 with
          tmplog :=
            (finish_recovery i { w with tmplog := w.tmplog ++ A }).1.tmplog
              ++ B }).1).logFile
      = w.logFile ++ A ++ B := by
  cases i <;>
    simp [finish_recovery, h, List.drop_left, List.append_assoc,
      List.drop_append_of_le_length]

/-- Witness for C5: a state whose temporary log is fully flushed, then one
byte is added before each of two Completion calls. -/
theorem finish_recovery_log_no_duplication_witness :
    w0.tmplogOffset = w0.tmplog.length ∧
    ((finish_recovery none
        { (finish_recovery none { w0 with tmplog := w0.tmplog ++ [70] }).1 with
          tmplog :=
            (finish_recovery none
              { w0 with tmplog := w0.tmplog ++ [70] }).1.tmplog
              ++ [71] }).1).logFile
      = w0.logFile ++ [70] ++ [71] :=
  ⟨rfl, finish_recovery_log_no_duplication w0 none [70] [71] rfl⟩

/-- C6: The Dispatcher produces exactly one terminal status by first-match:
an update-package path invokes the install operation and mirrors its result
verbatim; else a requested wipe erases data before cache, `--wipe_data` by
itself requesting both, with status `Error` iff any requested erase fails;
else the status is `Error` ("no command specified"). -/
theorem dispatch_first_match_policy (p : ParseState) (inst : Nat)
    (er : String → Nat) :
    (∀ pkg, p.update_package = some pkg →
      dispatch p inst er = ⟨inst, [], some pkg⟩) ∧
    (p.update_package = none → (p.wipe_data = true ∨ p.wipe_cache = true) →
      (dispatch p inst er).eraseCalls
        = (if p.wipe_data then ["DATA:"] else [])
          ++ (if p.wipe_cache then ["CACHE:"] else []) ∧
      ((dispatch p inst er).status = INSTALL_SUCCESS ↔
        (p.wipe_data = true → er "DATA:" = 0) ∧
        (p.wipe_cache = true → er "CACHE:" = 0))) ∧
    (p.update_package = none → p.wipe_data = false → p.wipe_cache = false →
      (dispatch p inst er).status = INSTALL_ERROR) ∧
    (∀ st : ParseState, (parseOne st "--wipe_data").wipe_data = true ∧
      (parseOne st "--wipe_data").wipe_cache = true) := by
  refine ⟨?_, ?_, ?_, ?_⟩
  · intro pkg hp
    simp [dispatch, hp]
  · intro hn hw
    cases hd : p.wipe_data <;> cases hc : p.wipe_cache <;>
      rw [hd, hc] at hw <;>
      by_cases hD : er "DATA:" = 0 <;> by_cases hC : er "CACHE:" = 0 <;>
      simp [dispatch, hn, hd, hc, hD, hC, INSTALL_SUCCESS, INSTALL_ERROR] <;>
      simp at hw
  · intro hn hd hc
    simp [dispatch, hn, hd, hc, INSTALL_ERROR]
  · intro st
    simp [parseOne]

/-- Witness for C6 at concrete inputs: install mirrored, both wipes with a
cache failure give `Error` with data erased before cache, the bare vector
gives `Error`, and `--wipe_data` sets both wipe flags. -/
theorem dispatch_first_match_policy_witness :
    dispatch ⟨none, some "CACHE:u.zip", false, false⟩ 7 (fun _ => 0)
      = ⟨7, [], some "CACHE:u.zip"⟩ ∧
    ((dispatch ⟨none, none, true, true⟩ 0
        (fun r => if r = "CACHE:" then 1 else 0)).eraseCalls
      = ["DATA:", "CACHE:"] ∧
      ¬ (dispatch ⟨none, none, true, true⟩ 0
          (fun r => if r = "CACHE:" then 1 else 0)).status = INSTALL_SUCCESS) ∧
    (dispatch ⟨none, none, false, false⟩ 0 (fun _ => 0)).status
      = INSTALL_ERROR ∧
    (parseOne ⟨none, none, false, false⟩ "--wipe_data").wipe_data = true ∧
    (parseOne ⟨none, none, false, false⟩ "--wipe_data").wipe_cache = true := by
  refine ⟨(dispatch_first_match_policy ⟨none, some "CACHE:u.zip", false, false⟩
      7 (fun _ => 0)).1 "CACHE:u.zip" rfl,
    ⟨((dispatch_first_match_policy ⟨none, none, true, true⟩ 0
        (fun r => if r = "CACHE:" then 1 else 0)).2.1 rfl (Or.inl rfl)).1 |>.trans
      (by decide), ?_⟩,
    (dispatch_first_match_policy ⟨none, none, false, false⟩ 0
      (fun _ => 0)).2.2.1 rfl rfl rfl,
    ((dispatch_first_match_policy ⟨none, none, false, false⟩ 0
      (fun _ => 0)).2.2.2 ⟨none, none, false, false⟩).1,
    ((dispatch_first_match_policy ⟨none, none, false, false⟩ 0
      (fun _ => 0)).2.2.2 ⟨none, none, false, false⟩).2⟩
  intro hs
  have := ((dispatch_first_match_policy ⟨none, none, true, true⟩ 0
      (fun r => if r = "CACHE:" then 1 else 0)).2.1 rfl (Or.inl rfl)).2.mp hs
  exact absurd (this.2 rfl) (by decide)

/-- C9: A terminal `Error` status signals the persistent on-screen failure
indicator and then drops control to the interactive fallback before any
reboot; a `Success` status never enters the fallback (nor shows the
indicator) on this path. -/
theorem error_status_interactive_fallback (s r : Nat) :
    (s ≠ INSTALL_SUCCESS →
      post_dispatch s r
        = [.showFailureIndicator, .backlightOff, .mountRoots, .promptAndWait,
           .firmwareUpdate, .finishRec]
          ++ (if r ≠ 0 then [.rebootCall] else [])) ∧
    (s = INSTALL_SUCCESS →
      MainEvent.promptAndWait ∉ post_dispatch s r ∧
      MainEvent.showFailureIndicator ∉ post_dispatch s r) := by
  constructor
  · intro h
    simp [post_dispatch, h]
  · intro h
    subst h
    by_cases hr : r = 0 <;> simp [post_dispatch, INSTALL_SUCCESS, hr]

/-- Witness for C9: status 1 with `do_reboot` 1 shows the indicator and the
fallback in order; status 0 never reaches the fallback. -/
theorem error_status_interactive_fallback_witness :
    post_dispatch 1 1
      = [.showFailureIndicator, .backlightOff, .mountRoots, .promptAndWait,
         .firmwareUpdate, .finishRec]
        ++ (if (1 : Nat) ≠ 0 then [.rebootCall] else []) ∧
    MainEvent.promptAndWait ∉ post_dispatch 0 1 :=
  ⟨(error_status_interactive_fallback 1 1).1 (by decide),
   ((error_status_interactive_fallback 0 1).2 rfl).1⟩

/-- C10: When both wipes are requested and the data erase fails, the cache
erase is still attempted (no short-circuit), and the terminal status is
`Error` regardless of the cache erase's outcome. -/
theorem wipe_cache_attempted_after_data_failure (si : Option String)
    (inst : Nat) (er : String → Nat) (h : er "DATA:" ≠ 0) :
    (dispatch ⟨si, none, true, true⟩ inst er).eraseCalls
      = ["DATA:", "CACHE:"] ∧
    (dispatch ⟨si, none, true, true⟩ inst er).status = INSTALL_ERROR := by
  by_cases hC : er "CACHE:" = 0 <;>
    simp [dispatch, h, hC, INSTALL_ERROR]

/-- Witness for C10: both erases fail; the cache erase is attempted and the
status is `Error`. -/
theorem wipe_cache_attempted_after_data_failure_witness :
    (fun _ : String => 1) "DATA:" ≠ 0 ∧
    (dispatch ⟨none, none, true, true⟩ 0 (fun _ => 1)).eraseCalls
      = ["DATA:", "CACHE:"] ∧
    (dispatch ⟨none, none, true, true⟩ 0 (fun _ => 1)).status
      = INSTALL_ERROR :=
  ⟨by decide,
   (wipe_cache_attempted_after_data_failure none 0 (fun _ => 1) (by decide)).1,
   (wipe_cache_attempted_after_data_failure none 0 (fun _ => 1) (by decide)).2⟩

/-- A `recovery` field whose first byte is a `0` or `0xFF` sentinel cannot
produce the identifying token as its first token. -/
theorem head_token_ne_recovery_of_sentinel (boot : BootMsg)
    (h : boot.recovery.headD 0 = 0 ∨ boot.recovery.headD 0 = 255) :
    (tokens (effectiveRecovery boot)).head? ≠ some (strBytes "recovery") := by
  rcases hrec : boot.recovery with _ | ⟨b, rest⟩
  · simp [effectiveRecovery, hrec, tokens, chunks]
  · rw [hrec] at h
    simp only [List.headD_cons] at h
    have htake : (b :: rest).take (RECOVERY_SIZE - 1)
        = b :: rest.take (RECOVERY_SIZE - 2) := rfl
    rcases h with h | h
    · subst h
      simp [effectiveRecovery, hrec, htake, tokens, chunks]
    · subst h
      rw [effectiveRecovery, hrec, htake,
        List.takeWhile_cons_of_pos (by decide)]
      obtain ⟨x, hx⟩ := tokens_head_byte 255 (by decide)
        ((rest.take (RECOVERY_SIZE - 2)).takeWhile (· ≠ 0))
      rw [hx]
      intro e
      have h1 : (255 :: x : List Nat) = strBytes "recovery" := Option.some.inj e
      rw [show strBytes "recovery" = [114, 101, 99, 111, 118, 101, 114, 121]
        from by decide] at h1
      exact absurd (List.cons.inj h1).1 (by decide)

/-- C7: With no explicit arguments, a control block whose `recovery` field's
first line is non-empty garbage (neither the identifying token nor empty)
makes the Resolver log the malformed-message warning and fall through to
the command-file source without failing the run; a control block whose
`recovery` field is empty (first byte `0` or `0xFF`) falls through silently
with no warning. -/
theorem resolver_malformed_tolerance (argv : List String) (boot : BootMsg)
    (f : Option (List String)) (h : argv.length ≤ 1) :
    ((tokens (effectiveRecovery boot)).head? ≠ some (strBytes "recovery") →
      boot.recovery.headD 0 ≠ 0 → boot.recovery.headD 0 ≠ 255 →
      (get_args argv boot f).warnedBadBoot = true ∧
      (get_args argv boot f).argv
        = (get_args argv ⟨boot.command, boot.status, []⟩ f).argv) ∧
    (boot.recovery.headD 0 = 0 ∨ boot.recovery.headD 0 = 255 →
      (get_args argv boot f).warnedBadBoot = false ∧
      (get_args argv boot f).argv
        = (get_args argv ⟨boot.command, boot.status, []⟩ f).argv) := by
  constructor
  · intro hm h0 h255
    refine ⟨?_, get_args_argv_fallthrough argv boot f h hm⟩
    simp only [get_args, if_pos h]
    rw [decide_eq_true h0, decide_eq_true h255]
    rcases htoks : tokens (effectiveRecovery boot) with _ | ⟨t, ts⟩
    · rfl
    · have hne : t ≠ strBytes "recovery" := fun e => hm (by rw [htoks, e]; rfl)
      show (decide (t ≠ strBytes "recovery") && true && true) = true
      rw [decide_eq_true hne]
      rfl
  · intro hb
    refine ⟨?_,
      get_args_argv_fallthrough argv boot f h
        (head_token_ne_recovery_of_sentinel boot hb)⟩
    simp only [get_args, if_pos h]
    rcases hb with hb | hb
    · rw [decide_eq_false (not_not_intro hb)]
      simp
    · rw [decide_eq_false (not_not_intro hb)]
      simp

/-- Witness for C7: garbage first line warns and falls through to the
command file; a `0xFF` block is silent. -/
theorem resolver_malformed_tolerance_witness :
    ((["/sbin/recovery"] : List String).length ≤ 1 ∧
     (get_args ["/sbin/recovery"] bootGarbage
         (some ["--wipe_cache"])).warnedBadBoot = true ∧
     (get_args ["/sbin/recovery"] bootGarbage (some ["--wipe_cache"])).argv
       = (get_args ["/sbin/recovery"]
           ⟨bootGarbage.command, bootGarbage.status, []⟩
           (some ["--wipe_cache"])).argv) ∧
    (get_args ["/sbin/recovery"] bootFF none).warnedBadBoot = false :=
  ⟨⟨by decide,
    (resolver_malformed_tolerance ["/sbin/recovery"] bootGarbage
        (some ["--wipe_cache"]) (by decide)).1
      (by decide) (by decide) (by decide)⟩,
   ((resolver_malformed_tolerance ["/sbin/recovery"] bootFF none
        (by decide)).2 (Or.inr (by decide))).1⟩

/-- The canonical serialization always begins with the identifying token and
a newline, split off as byte lists. -/
theorem recoveryText_eq_token_cons (args : List String) :
    recoveryText args
      = strBytes "recovery" ++ NL ::
          ((args.drop 1).flatMap fun a => strBytes a ++ [NL]) := by
  rw [recoveryText,
    show strBytes "recovery\n" = strBytes "recovery" ++ [NL] from by decide,
    List.append_assoc, List.singleton_append]

/-- C8: For every argument list whose serialized recovery text exceeds the
recovery field's capacity, the control-block write truncates within the
recovery field: `command` is left exactly `"boot-recovery"`, the stored
recovery text never exceeds the field's bound, and the record remains
readable on the next resolve (its first token is still the identifying
token). -/
theorem resolver_truncation_safety (argv : List String) (boot : BootMsg)
    (f : Option (List String))
    (h : RECOVERY_SIZE - 1
        < (recoveryText (get_args argv boot f).argv).length) :
    (get_args argv boot f).boot.command = strBytes "boot-recovery" ∧
    (get_args argv boot f).boot.recovery.length = RECOVERY_SIZE - 1 ∧
    (tokens (effectiveRecovery (get_args argv boot f).boot)).head?
      = some (strBytes "recovery") := by
  rw [get_args_boot_eq]
  refine ⟨rfl, ?_, ?_⟩
  · rw [List.length_take]
    omega
  · rw [effectiveRecovery]
    rw [List.take_take, Nat.min_self,
      recoveryText_eq_token_cons,
      List.take_append_eq_append_take,
      List.take_of_length_le (show (strBytes "recovery").length ≤
        RECOVERY_SIZE - 1 from by decide),
      List.takeWhile_append_of_pos
        (show ∀ b ∈ strBytes "recovery", (decide ¬ b = 0) = true from
          by decide)]
    rw [show List.take (RECOVERY_SIZE - 1 - (strBytes "recovery").length)
          (NL :: ((get_args argv boot f).argv.drop 1).flatMap
            fun a => strBytes a ++ [NL])
        = NL :: List.take 1014 (((get_args argv boot f).argv.drop 1).flatMap
            fun a => strBytes a ++ [NL]) from rfl,
      List.takeWhile_cons_of_pos (by decide),
      tokens_token_cons _ _ (by decide) (by decide)]
    rfl

/-- Witness for C8: a 1200-byte argument overflows the 1024-byte field; the
command field survives and the stored text is exactly the capacity. -/
theorem resolver_truncation_safety_witness :
    RECOVERY_SIZE - 1
      < (recoveryText (get_args ["/sbin/recovery", bigArg]
          zeroBoot none).argv).length ∧
    (get_args ["/sbin/recovery", bigArg] zeroBoot none).boot.command
      = strBytes "boot-recovery" ∧
    (get_args ["/sbin/recovery", bigArg] zeroBoot none).boot.recovery.length
      = RECOVERY_SIZE - 1 := by
  have hbig : (strBytes bigArg).length = 1200 := by
    rw [strBytes, bigArg, List.length_map,
      show (String.mk (List.replicate 1200 'a')).data
        = List.replicate 1200 'a' from rfl]
    exact List.length_replicate _ _
  have hlen : RECOVERY_SIZE - 1
      < (recoveryText (get_args ["/sbin/recovery", bigArg]
          zeroBoot none).argv).length := by
    rw [get_args_of_explicit _ _ _ (by decide)]
    show RECOVERY_SIZE - 1 < (recoveryText ["/sbin/recovery", bigArg]).length
    rw [recoveryText,
      show List.drop 1 ["/sbin/recovery", bigArg] = [bigArg] from rfl,
      List.flatMap_cons, List.flatMap_nil, List.append_nil,
      List.length_append, List.length_append, hbig]
    decide
  exact ⟨hlen,
    (resolver_truncation_safety ["/sbin/recovery", bigArg] zeroBoot none
      hlen).1,
    (resolver_truncation_safety ["/sbin/recovery", bigArg] zeroBoot none
      hlen).2.1⟩

/-- Decoding the bytes of a string returns the string. -/
theorem bytesToString_strBytes (s : String) : bytesToString (strBytes s) = s := by
  rcases s with ⟨data⟩
  rw [bytesToString, strBytes, List.map_map,
    show (Char.ofNat ∘ Char.toNat) = id from funext fun c => Char.ofNat_toNat c,
    List.map_id]

/-- C3 fails as stated: resolving from an armed control block does not
preserve the original program name as argument zero — the code stores the
matched identifying token there (`(*argv)[0] = strdup(arg)`, recovery.c
line 179). With program name `/sbin/recovery` the result is
`["recovery", "--wipe_cache"]`, not `["/sbin/recovery", "--wipe_cache"]`. -/
theorem resolver_replaces_progname_counterexample :
    (get_args ["/sbin/recovery"] bootWipeCache none).argv
      ≠ ["/sbin/recovery", "--wipe_cache"] := by decide

/-- C3 (amended): given an empty explicit argument vector and the control
block armed by a previous resolve, the Resolver reconstructs the identifying
token `"recovery"` as argument zero followed by exactly the previously
resolved arguments from index 1 on (each nonempty, free of NUL/newline
bytes, within the argument-count cap, and with the serialization within the
field's capacity): arming composed with resolving is the identity on the
argument list from index 1 on, while argument zero becomes the token. -/
theorem arm_resolve_roundtrip (argv : List String) (boot : BootMsg)
    (f f' : Option (List String)) (p : String)
    (hne : (get_args argv boot f).argv.drop 1 ≠ [])
    (hcount : ((get_args argv boot f).argv.drop 1).length ≤ MAX_ARGS - 1)
    (hbytes : ∀ a ∈ (get_args argv boot f).argv.drop 1,
      strBytes a ≠ [] ∧ ∀ b ∈ strBytes a, b ≠ 0 ∧ b ≠ NL)
    (hcap : (recoveryText (get_args argv boot f).argv).length
      ≤ RECOVERY_SIZE - 1) :
    (get_args [p] (get_args argv boot f).boot f').argv
      = "recovery" :: (get_args argv boot f).argv.drop 1 := by
  rw [get_args_boot_eq]
  have heff : effectiveRecovery ⟨strBytes "boot-recovery", boot.status,
      (recoveryText (get_args argv boot f).argv).take (RECOVERY_SIZE - 1)⟩
      = recoveryText (get_args argv boot f).argv := by
    rw [effectiveRecovery]
    show (((recoveryText _).take _).take _).takeWhile _ = _
    rw [List.take_take, Nat.min_self, List.take_of_length_le hcap]
    refine List.takeWhile_eq_self_iff.mpr ?_
    intro b hb
    rw [recoveryText_eq_token_cons] at hb
    rcases List.mem_append.mp hb with h1 | h1
    · exact (show ∀ x ∈ strBytes "recovery", decide (x ≠ 0) = true
        from by decide) b h1
    · rcases List.mem_cons.mp h1 with h2 | h2
      · subst h2; decide
      · obtain ⟨a, ha, hba⟩ := List.mem_flatMap.mp h2
        rcases List.mem_append.mp hba with h3 | h3
        · simpa using ((hbytes a ha).2 b h3).1
        · rcases List.mem_singleton.mp h3 with rfl
          decide
  have htoks : tokens (recoveryText (get_args argv boot f).argv)
      = strBytes "recovery"
        :: ((get_args argv boot f).argv.drop 1).map strBytes := by
    rw [recoveryText_eq_token_cons,
      tokens_token_cons _ _ (by decide) (by decide),
      tokens_flatMap _ (fun a ha =>
        ⟨(hbytes a ha).1, fun b hb => ((hbytes a ha).2 b hb).2⟩)]
  rcases hargs : (get_args argv boot f).argv.drop 1 with _ | ⟨a, args'⟩
  · exact absurd hargs hne
  · have htoks2 : tokens (effectiveRecovery ⟨strBytes "boot-recovery",
        boot.status, (recoveryText (get_args argv boot f).argv).take
          (RECOVERY_SIZE - 1)⟩)
        = strBytes "recovery" :: strBytes a :: args'.map strBytes := by
      rw [heff, htoks, hargs, List.map_cons]
    rw [get_args_of_bcb [p] _ f' (by simp) (strBytes a)
      (args'.map strBytes) htoks2]
    show "recovery" :: ((strBytes a :: args'.map strBytes).take
        (MAX_ARGS - 1)).map bytesToString = _
    rw [hargs] at hcount
    have hlen2 : (strBytes a :: args'.map strBytes).length ≤ MAX_ARGS - 1 := by
      simpa using hcount
    rw [List.take_of_length_le hlen2, ← List.map_cons strBytes a args',
      List.map_map,
      show (bytesToString ∘ strBytes) = id from funext bytesToString_strBytes,
      List.map_id]

/-- Witness for C3 (amended): arming from an explicit
`["/sbin/recovery", "--wipe_cache"]` run, then resolving with only a
program name, yields `["recovery", "--wipe_cache"]`. -/
theorem arm_resolve_roundtrip_witness :
    ((get_args ["/sbin/recovery", "--wipe_cache"] zeroBoot none).argv.drop 1
        ≠ [] ∧
      ((get_args ["/sbin/recovery", "--wipe_cache"]
          zeroBoot none).argv.drop 1).length ≤ MAX_ARGS - 1 ∧
      (recoveryText (get_args ["/sbin/recovery", "--wipe_cache"]
          zeroBoot none).argv).length ≤ RECOVERY_SIZE - 1) ∧
    (get_args ["/sbin/recovery"]
        (get_args ["/sbin/recovery", "--wipe_cache"] zeroBoot none).boot
        none).argv
      = "recovery"
        :: (get_args ["/sbin/recovery", "--wipe_cache"]
            zeroBoot none).argv.drop 1 :=
  ⟨⟨by decide, by decide, by decide⟩,
   arm_resolve_roundtrip ["/sbin/recovery", "--wipe_cache"] zeroBoot none
     none "/sbin/recovery" (by decide) (by decide) (by decide) (by decide)⟩

end Recovery
